import Mathlib

/-!
Verification of the PyFITS tile-compression C extension
(`src/compressionmodule.c`) against its natural-language specification.

The development is a shallow embedding of the module: Python objects that
the C code inspects (header values, list elements) are modelled by a small
value type, the CPython API calls the code makes (`PyObject_GetItem`,
`PyLong_AsLong`, `PyString_AsString`, ...) are modelled as pure functions
returning a value together with the pending-exception state they leave
behind, and each C function of the module becomes a Lean function over
those models.  C `double` is modelled by `ℚ` (only exact assignments and
comparisons of small constants occur in the verified code paths).  C
unsigned 64-bit arithmetic is modelled on `Nat`/`Int` with an explicit
`% 2 ^ 64` where a conversion or overflow matters.

External cfitsio routines (`fits_binary_tform`, `imcomp_calc_max_elem`,
`fits_create_memfile`) are collaborators outside this repository: the
embedded functions take them as explicit function arguments, so theorems
can quantify over every possible behaviour of the collaborator; where a
concrete instance is needed, a model built from the specification's
description is supplied and marked as such.
-/

namespace PyFitsCompression

/-- Pending CPython exception kinds distinguished by the module. -/
inductive PyErr where
  | keyError
  | typeError
  | valueError
  | overflowError
  | memoryError
deriving DecidableEq

/-- A Python value as far as the C module inspects it: an `int`, a
`str`/`bytes`, or a `float`.  (`float` is modelled by `ℚ`.) -/
inductive PyVal where
  | int (n : Int)
  | str (s : String)
  | float (q : ℚ)
deriving DecidableEq

/-- The abstract header mapping: key → optional value.  `none` models a
missing keyword (`PyObject_GetItem` returning NULL with a `KeyError`). -/
def Header : Type := String → Option PyVal

/-- `PyObject_GetItem(header, key)`: returns the value and the pending
exception it leaves (a `KeyError` when the key is absent). -/
def pyObject_GetItem (h : Header) (k : String) : Option PyVal × Option PyErr :=
  match h k with
  | some v => (some v, none)
  | none => (none, some PyErr.keyError)

/-- `PyLong_AsLong(v)`: a Python `int` in the C `long` (64-bit signed)
range converts exactly; out-of-range sets `OverflowError` and returns -1;
a non-`int` sets `TypeError` and returns -1. -/
def pyLong_AsLong (v : PyVal) : Int × Option PyErr :=
  match v with
  | PyVal.int n =>
      if -(2 ^ 63) ≤ n ∧ n < 2 ^ 63 then (n, none)
      else (-1, some PyErr.overflowError)
  | _ => (-1, some PyErr.typeError)

/-- `PyLong_AsLongLong(v)`: same contract as `pyLong_AsLong` with the
C `long long` (also 64-bit signed) range. -/
def pyLong_AsLongLong (v : PyVal) : Int × Option PyErr :=
  match v with
  | PyVal.int n =>
      if -(2 ^ 63) ≤ n ∧ n < 2 ^ 63 then (n, none)
      else (-1, some PyErr.overflowError)
  | _ => (-1, some PyErr.typeError)

/-- `PyLong_AsDouble(v)`: converts a Python `int` to a double (exact in
this model); a non-`int` sets `TypeError` and returns -1. -/
def pyLong_AsDouble (v : PyVal) : ℚ × Option PyErr :=
  match v with
  | PyVal.int n => ((n : ℚ), none)
  | _ => (-1, some PyErr.typeError)

/-- `PyString_AsString(v)` (`PyBytes_AsString` under Python 3): yields
the char pointer of a string value; `none` models the NULL pointer
returned (with `TypeError`) for a non-string value. -/
def pyString_AsString (v : PyVal) : Option String × Option PyErr :=
  match v with
  | PyVal.str s => (some s, none)
  | _ => (none, some PyErr.typeError)

/-- Conversion of a C signed 64-bit value to `unsigned long`/`unsigned
long long` (both 64-bit here): reduction modulo `2 ^ 64`. -/
def toU64 (n : Int) : Nat := (n % (2 ^ 64 : Int)).toNat

/-- `get_header_string` from `compressionmodule.c`: one
`PyObject_GetItem` lookup; on lookup failure the error is cleared
(`PyErr_Clear`) and the caller-supplied default is returned.  The result
is the returned `char*` (`none` = NULL from a failed string conversion),
the pending exception after the call, and the list of keys looked up. -/
def get_header_string (h : Header) (keyword : String) (dflt : String) :
    Option String × Option PyErr × List String :=
  match pyObject_GetItem h keyword with
  | (some v, _) => ((pyString_AsString v).1, (pyString_AsString v).2, [keyword])
  | (none, _) => (some dflt, none, [keyword])

/-- `get_header_long` from `compressionmodule.c`: one lookup; on lookup
failure clears the error and returns the default (an `unsigned long`
value, hence `< 2 ^ 64`); on success converts with `PyLong_AsLong` and
stores the result into an unsigned 64-bit variable. -/
def get_header_long (h : Header) (keyword : String) (dflt : Nat) :
    Nat × Option PyErr × List String :=
  match pyObject_GetItem h keyword with
  | (some v, _) => (toU64 (pyLong_AsLong v).1, (pyLong_AsLong v).2, [keyword])
  | (none, _) => (dflt, none, [keyword])

/-- `get_header_double` from `compressionmodule.c`: one lookup; on lookup
failure clears the error and returns the default; on success converts
with `PyLong_AsDouble`. -/
def get_header_double (h : Header) (keyword : String) (dflt : ℚ) :
    ℚ × Option PyErr × List String :=
  match pyObject_GetItem h keyword with
  | (some v, _) => ((pyLong_AsDouble v).1, (pyLong_AsDouble v).2, [keyword])
  | (none, _) => (dflt, none, [keyword])

/-- `get_header_longlong` from `compressionmodule.c`: one lookup; on
lookup failure clears the error and returns the default (an `unsigned
long long` value, hence `< 2 ^ 64`); on success converts with
`PyLong_AsLongLong` into an unsigned 64-bit variable. -/
def get_header_longlong (h : Header) (keyword : String) (dflt : Nat) :
    Nat × Option PyErr × List String :=
  match pyObject_GetItem h keyword with
  | (some v, _) => (toU64 (pyLong_AsLongLong v).1, (pyLong_AsLongLong v).2, [keyword])
  | (none, _) => (dflt, none, [keyword])

/-! ### cfitsio constants (values from `fitsio.h` / `fitsio2.h`) -/

/-- cfitsio compression-algorithm tag `RICE_1`. -/
def RICE_1 : Int := 11

/-- cfitsio compression-algorithm tag `GZIP_1`. -/
def GZIP_1 : Int := 21

/-- cfitsio compression-algorithm tag `PLIO_1`. -/
def PLIO_1 : Int := 31

/-- cfitsio compression-algorithm tag `HCOMPRESS_1`. -/
def HCOMPRESS_1 : Int := 41

/-- The `compress_type` value stored for an unrecognized `ZCMPTYPE` by the
selection logic of this module (stored/uncompressed tiles, "NONE"). -/
def NO_COMPRESSION : Int := 0

/-- cfitsio `BINARY_TBL` HDU-type tag. -/
def BINARY_TBL : Int := 2

/-- cfitsio `MAX_COMPRESS_DIM`: number of entries of `znaxis`/`tilesize`. -/
def MAX_COMPRESS_DIM : Nat := 6

/-- cfitsio `NULL_UNDEFINED` sentinel for an undefined `TNULL`. -/
def NULL_UNDEFINED : Nat := 1234554321

/-- cfitsio `BAD_TFORM` status: failure to parse a `TFORM` value. -/
def BAD_TFORM : Int := 261

/-! ### C strings and keyword formatting -/

/-- The character sequence a C `char*` denotes: the contents of the
backing string up to its first NUL byte. -/
def cstr (s : String) : List Char := s.data.takeWhile (fun c => c.toNat ≠ 0)

/-- `strncpy(dest, src, n)` into a buffer that is explicitly
NUL-terminated at index `n` right afterwards (the pattern used for the
`ttype` and `tform` fields): the stored string is the first `n`
characters of `src`'s C contents. -/
def strncpyTo (s : String) (n : Nat) : String := String.mk ((cstr s).take n)

/-- `snprintf(tkw, 9, "<base>%u", idx)`: the formatted keyword truncated
to at most 8 characters (the 9-byte buffer keeps one byte for the NUL). -/
def tkeyword (base : String) (idx : Nat) : String :=
  String.mk ((base ++ toString idx).data.take 8)

/-! ### Column descriptors (`tcolumns_from_header`) -/

/-- The fields of the cfitsio `tcolumn` structure that
`tcolumns_from_header` fills in.  `tbcol` and `tnull` are stored through
unsigned 64-bit intermediaries, kept here as `Nat`. -/
structure TColumn where
  ttype : String
  tbcol : Nat
  tdatatype : Int
  trepeat : Int
  tscale : ℚ
  tzero : ℚ
  tnull : Nat
  strnull : String
  tform : String
  twidth : Int
deriving DecidableEq

/-- The state threaded through the calls to the external
`fits_binary_tform`: its three output registers (`dtcode`, `trepeat`,
`twidth`, which are local variables of `tcolumns_from_header` reused
across loop iterations) and the cfitsio `status` variable (initialised to
0 once, before the loop). -/
structure ParseState where
  dtcode : Int
  trepeat : Int
  twidth : Int
  status : Int
deriving DecidableEq

/-- One iteration of the `tcolumns_from_header` loop, at column index
`idx` (1-based).  `parse` is the external `fits_binary_tform`, acting on
the full parse state.  A non-string header value for `TTYPE`/`TFORM`
would make the C code pass a NULL pointer to `strncpy` (undefined
behaviour); the model maps that case to `""`, and theorems about these
fields restrict attention to string-or-absent header values. -/
def buildColumn (parse : String → ParseState → ParseState) (h : Header)
    (idx : Nat) (ps : ParseState) : TColumn × ParseState :=
  let ttypeStr := ((get_header_string h (tkeyword "TTYPE" idx) "").1).getD ""
  let tformStr := ((get_header_string h (tkeyword "TFORM" idx) "").1).getD ""
  let ps1 := parse tformStr ps
  ({ ttype := strncpyTo ttypeStr 69
     tbcol := (get_header_longlong h (tkeyword "TBCOL" idx) 0).1
     tdatatype := ps1.dtcode
     trepeat := ps1.trepeat
     tscale := (get_header_double h (tkeyword "TSCAL" idx) 1).1
     tzero := (get_header_double h (tkeyword "TZERO" idx) 0).1
     tnull := (get_header_longlong h (tkeyword "TNULL" idx) NULL_UNDEFINED).1
     strnull := ""
     tform := strncpyTo tformStr 9
     twidth := ps1.twidth }, ps1)

/-- The `tcolumns_from_header` loop: `n` remaining iterations starting at
column index `idx`, threading the parse state. -/
def buildColumns (parse : String → ParseState → ParseState) (h : Header) :
    Nat → Nat → ParseState → List TColumn
  | 0, _, _ => []
  | n + 1, idx, ps =>
      (buildColumn parse h idx ps).1 ::
        buildColumns parse h n (idx + 1) (buildColumn parse h idx ps).2

/-- `tcolumns_from_header` from `compressionmodule.c`: reads `TFIELDS`
(default 0), builds one `tcolumn` per index `1..TFIELDS`, and returns the
column array, the `TFIELDS` count and the C return value — which is the
constant 0 (the status set by `fits_binary_tform` is discarded).
The allocation of the array and the loop counter wrap-around above
`2 ^ 32` columns are not modelled (the claims use small headers). -/
def tcolumns_from_header (parse : String → ParseState → ParseState)
    (ps0 : ParseState) (h : Header) : List TColumn × Nat × Int :=
  let tfields := (get_header_long h "TFIELDS" 0).1
  (buildColumns parse h tfields 1 ps0, tfields, 0)

/-- Modelled from the spec: the external cfitsio collaborator
`fits_binary_tform` is not part of this repository; the specification
describes a binary-table format string as `[repeat]<type-letter>[width]`
with the letter selecting an element type code (this table), and an
empty or letter-less string or an unrecognized letter failing the parse.
The returned pair is the element type code and the type's element byte
width (the numeric code values are a representation choice). -/
def tformTypeCode (c : Char) : Option (Int × Int) :=
  if c = 'L' then some (14, 1)        -- logical
  else if c = 'X' then some (1, 1)    -- bit
  else if c = 'B' then some (11, 1)   -- byte
  else if c = 'I' then some (21, 2)   -- 16-bit integer
  else if c = 'J' then some (41, 4)   -- 32-bit integer
  else if c = 'K' then some (81, 8)   -- 64-bit integer
  else if c = 'E' then some (42, 4)   -- 32-bit float
  else if c = 'A' then some (16, 1)   -- character
  else if c = 'D' then some (82, 8)   -- 64-bit float
  else if c = 'C' then some (83, 8)   -- single complex
  else if c = 'M' then some (163, 16) -- double complex
  else if c = 'P' then some (87, 8)   -- variable-length array descriptor
  else none

/-- Modelled from the spec: cfitsio's `fits_binary_tform` (not under
`src/`).  A format string is `[repeat]<type-letter>[width]`; the repeat
count defaults to 1 when absent; an empty/letter-less string or an
unrecognized type letter fails with a `BAD_TFORM` status.  Per the
cfitsio convention, a call entered with a nonzero status does nothing. -/
def fits_binary_tform (tform : String) (ps : ParseState) : ParseState :=
  if ps.status ≠ 0 then ps
  else
    let ds := tform.data.takeWhile Char.isDigit
    let rest := tform.data.dropWhile Char.isDigit
    let rep : Int := (if ds.isEmpty then 1 else ds.foldl (fun a c => a * 10 + (c.toNat - 48)) 0 : Nat)
    match rest with
    | [] => { ps with status := BAD_TFORM }
    | c :: _ =>
        match tformTypeCode c with
        | none => { ps with status := BAD_TFORM }
        | some cw => { dtcode := cw.1, trepeat := rep, twidth := cw.2, status := 0 }

/-! ### Compression configuration (`configure_compression`) -/

/-- The compression-related fields of the cfitsio `FITSfile` structure
that `configure_compression` writes. -/
structure CompConfig where
  compressimg : Int
  zcmptype : String
  compress_type : Int
  zbitpix : Int
  zndim : Int
  znaxis : List Int
  tilesize : List Int
  maxtilelen : Int
  rice_blocksize : Int
  rice_bytepix : Int
  maxelem : Int
  cn_compressed : Int
  cn_uncompressed : Int
  cn_gzip_data : Int
  cn_zscale : Int
  cn_zzero : Int
  cn_zblank : Int
  zscale : ℚ
  cn_bscale : ℚ
deriving DecidableEq

/-- The file-scope array `__znaxis` of `compressionmodule.c`. -/
def znaxisDefault : List Int := [440, 300, 0, 0, 0, 0]

/-- The file-scope array `__tilesize` of `compressionmodule.c`. -/
def tilesizeDefault : List Int := [440, 1, 0, 0, 0, 0]

/-- `configure_compression` from `compressionmodule.c`.  `maxElemFn`
models the external cfitsio `imcomp_calc_max_elem`, applied as in the
source to `(compress_type, maxtilelen, zbitpix, rice_blocksize)`.  The
`header` parameter is the one the C function receives. -/
def configure_compression (maxElemFn : Int → Int → Int → Int → Int)
    (header : Header) : CompConfig :=
  { compressimg := 1
    zcmptype := "RICE_1"
    compress_type := RICE_1
    zbitpix := 16
    zndim := 2
    znaxis := znaxisDefault
    tilesize := tilesizeDefault
    maxtilelen := 440
    rice_blocksize := 32
    rice_bytepix := 2
    maxelem := maxElemFn RICE_1 440 16 32
    cn_compressed := 1
    cn_uncompressed := -1
    cn_gzip_data := -1
    cn_zscale := -1
    cn_zzero := -1
    cn_zblank := -1
    zscale := 1
    cn_bscale := 1 }

/-! ### Opening a decode session from an in-memory HDU -/

/-- The in-memory HDU as `open_from_pyfits_hdu` inspects it: its
`_header` attribute and the byte count of its `data` array
(`PyArray_NBYTES`).  The buffer contents are never examined by the
layout computation, so they do not appear in the model. -/
structure PyHdu where
  header : Header
  dataNBytes : Nat

/-- The fields of the cfitsio `FITSfile` structure that
`open_from_pyfits_hdu` sets up (plus the `status` out-variable of the
external `fits_create_memfile`, modelled as succeeding). -/
structure FitsFileState where
  status : Int
  bufsize : Nat
  tableptr : List TColumn
  hdutype : Int
  datastart : Nat
  tfield : Nat
  origrows : Nat
  numrows : Nat
  rowlength : Nat
  heapstart : Nat
  heapsize : Nat
  comp : CompConfig
deriving DecidableEq

/-- `open_from_pyfits_hdu` from `compressionmodule.c`: builds the column
descriptors, reads `NAXIS1`/`NAXIS2`/`PCOUNT` (each defaulting to 0),
sizes the memory file as data bytes plus `PCOUNT` raised to a minimum of
2880, and installs the heap layout (`heapstart = rowlen * nrows`,
`heapsize = pcount`, in unsigned 64-bit arithmetic) unconditionally: the
C function returns `void` and contains no bounds check or failure path. -/
def open_from_pyfits_hdu (parse : String → ParseState → ParseState)
    (ps0 : ParseState) (maxElemFn : Int → Int → Int → Int → Int)
    (hdu : PyHdu) : FitsFileState :=
  let cols := tcolumns_from_header parse ps0 hdu.header
  let rowlen := (get_header_longlong hdu.header "NAXIS1" 0).1
  let nrows := (get_header_longlong hdu.header "NAXIS2" 0).1
  let pcount := (get_header_longlong hdu.header "PCOUNT" 0).1
  let bufsize0 := (hdu.dataNBytes + pcount) % 2 ^ 64
  let bufsize := if bufsize0 < 2880 then 2880 else bufsize0
  { status := 0
    bufsize := bufsize
    tableptr := cols.1
    hdutype := BINARY_TBL
    datastart := 0
    tfield := cols.2.1
    origrows := nrows
    numrows := nrows
    rowlength := rowlen
    heapstart := rowlen * nrows % 2 ^ 64
    heapsize := pcount
    comp := configure_compression maxElemFn hdu.header }

/-! ### Tile counting (`compression_compressData`) -/

/-- The C conversion of a wider signed value to a 32-bit signed `int`:
reduction into `[-2 ^ 31, 2 ^ 31)`. -/
def toI32 (n : Int) : Int := (n + 2 ^ 31) % 2 ^ 32 - 2 ^ 31

/-- The tile-count loop of `compression_compressData`: `int ntiles` is
initialised to 1, then `ntiles *= (naxes[ii] - 1) / tileSize[ii] + 1`
over the axes.  Each list entry pairs an image extent with a tile extent
(C `long` values, modelled on `Nat`; for extents below `2 ^ 63` the
per-axis `long` expression cannot overflow).  The multiplication promotes
`ntiles` to `long` and stores the product back into the 32-bit signed
`int` accumulator, wrapping via `toI32`. -/
def ntiles (axes : List (Nat × Nat)) : Int :=
  axes.foldl (fun acc p => toI32 (acc * (((p.1 - 1) / p.2 + 1 : Nat) : Int))) 1

/-! ### `get_long_array` -/

/-- The argument of `get_long_array` as far as the function inspects it:
either a Python list of values or some non-list object. -/
inductive PyArg where
  | list (xs : List PyVal)
  | nonList

/-- `get_long_array` from `compressionmodule.c`: a non-list argument sets
a `TypeError` and returns NULL; for a list, every element is converted
with `PyLong_AsLong` (the loop does not stop at a failing element), and
afterwards a single `PyErr_Occurred` check frees the array and returns
NULL when any conversion failed — the pending error is the last one set.
The first component is the returned array (`Except.error` = NULL with
the pending error), the second is the value written through the
`data_size` out-parameter (written before the conversions).  The
`PyList_Size < 0` branch is unreachable for a list, and allocation is
modelled as succeeding. -/
def get_long_array (data : PyArg) : Except PyErr (List Int) × Option Nat :=
  match data with
  | PyArg.nonList => (Except.error PyErr.typeError, none)
  | PyArg.list xs =>
      let rs := xs.map pyLong_AsLong
      match (rs.filterMap Prod.snd).getLast? with
      | some e => (Except.error e, some xs.length)
      | none => (Except.ok (rs.map Prod.fst), some xs.length)

/-! ### Concrete fixtures used by witnesses and counterexample evaluations -/

/-- A header with no keywords at all. -/
def emptyHeader : Header := fun _ => none

/-- A header declaring one column whose `TFORM1` is the empty string. -/
def hdrBadTform : Header := fun k =>
  if k = "TFIELDS" then some (PyVal.int 1)
  else if k = "TFORM1" then some (PyVal.str "")
  else none

/-- A header whose declared row area (`NAXIS1 * NAXIS2 = 10000` bytes)
plus heap (`PCOUNT = 1000000` bytes) exceeds the buffer implied by a
0-byte data array. -/
def hdrOverflowHeap : Header := fun k =>
  if k = "NAXIS1" then some (PyVal.int 100)
  else if k = "NAXIS2" then some (PyVal.int 100)
  else if k = "PCOUNT" then some (PyVal.int 1000000)
  else none

/-- An HDU with the overflowing header and an empty data array. -/
def hduOverflowHeap : PyHdu := { header := hdrOverflowHeap, dataNBytes := 0 }

/-- A header declaring only `PCOUNT = 5000`. -/
def hdrPcount5000 : Header := fun k =>
  if k = "PCOUNT" then some (PyVal.int 5000) else none

/-- A header with one column whose name is 72 characters long and whose
format string is 11 characters long (both over their storage limits). -/
def hdrTrunc : Header := fun k =>
  if k = "TFIELDS" then some (PyVal.int 1)
  else if k = "TTYPE1" then some (PyVal.str
    "AAAAAAAAAABBBBBBBBBBCCCCCCCCCCDDDDDDDDDDEEEEEEEEEEFFFFFFFFFFGGGGGGGGGGHH")
  else if k = "TFORM1" then some (PyVal.str "1234567890E")
  else none

/-- The string value a header holds at a key, as the C code consumes it:
the string itself when present, the `""` default used by
`tcolumns_from_header` when absent (non-string values lead to undefined
behaviour in the C code and are excluded by hypotheses). -/
def headerCStr (h : Header) (k : String) : String :=
  ((get_header_string h k "").1).getD ""

/-- A placeholder for the external `imcomp_calc_max_elem` used when a
concrete instantiation is required. -/
def maxElemZero : Int → Int → Int → Int → Int := fun _ _ _ _ => 0

/-- An arbitrary concrete initial parse state. -/
def psZero : ParseState := { dtcode := 0, trepeat := 0, twidth := 0, status := 0 }

/-! ### Helper lemmas -/

theorem strncpyTo_length_le (s : String) (n : Nat) : (strncpyTo s n).length ≤ n := by
  show ((cstr s).take n).length ≤ n
  simp [List.length_take]

theorem cstr_of_noNul (s : String) (hs : ∀ c ∈ s.data, c.toNat ≠ 0) :
    cstr s = s.data := by
  unfold cstr
  rw [List.takeWhile_eq_self_iff]
  simpa using hs

theorem buildColumns_length (parse : String → ParseState → ParseState)
    (h : Header) : ∀ (n idx : Nat) (ps : ParseState),
    (buildColumns parse h n idx ps).length = n := by
  intro n
  induction n with
  | zero => intro idx ps; rfl
  | succ n ih => intro idx ps; simp [buildColumns, ih]

theorem buildColumns_get (parse : String → ParseState → ParseState)
    (h : Header) : ∀ (n i idx : Nat) (ps : ParseState), i < n →
    ∃ ps2, (buildColumns parse h n idx ps)[i]? =
      some (buildColumn parse h (idx + i) ps2).1 := by
  intro n
  induction n with
  | zero => intro i idx ps hi; omega
  | succ n ih =>
      intro i idx ps hi
      cases i with
      | zero => exact ⟨ps, by simp [buildColumns]⟩
      | succ i =>
          obtain ⟨ps2, hp⟩ := ih i (idx + 1) (buildColumn parse h idx ps).2 (by omega)
          refine ⟨ps2, ?_⟩
          have hidx : idx + (i + 1) = idx + 1 + i := by omega
          rw [hidx]
          simpa [buildColumns] using hp

theorem toI32_eq_self (n : Int) (h0 : 0 ≤ n) (h1 : n < 2 ^ 31) : toI32 n = n := by
  unfold toI32
  omega

theorem one_le_prod_map (f : Nat × Nat → Nat) (hf : ∀ p, 1 ≤ f p) :
    ∀ l : List (Nat × Nat), 1 ≤ (l.map f).prod := by
  intro l
  induction l with
  | nil => simp
  | cons x xs ih =>
      simp only [List.map_cons, List.prod_cons]
      simpa using Nat.mul_le_mul (hf x) ih

theorem foldl_toI32_mul (f : Nat × Nat → Nat) (hf : ∀ p, 1 ≤ f p) :
    ∀ (l : List (Nat × Nat)) (a : Nat), 1 ≤ a →
    a * (l.map f).prod < 2 ^ 31 →
    l.foldl (fun acc p => toI32 (acc * (f p : Int))) (a : Int) =
      ((a * (l.map f).prod : Nat) : Int) := by
  intro l
  induction l with
  | nil => intro a ha hb; simp
  | cons x xs ih =>
      intro a ha hb
      simp only [List.map_cons, List.prod_cons, ← Nat.mul_assoc] at hb
      have hprodpos : 1 ≤ (xs.map f).prod := one_le_prod_map f hf xs
      have hsmall : a * f x < 2 ^ 31 :=
        lt_of_le_of_lt (Nat.le_mul_of_pos_right _ hprodpos) hb
      simp only [List.foldl_cons]
      have hcast : (a : Int) * (f x : Int) = ((a * f x : Nat) : Int) := by
        push_cast
        ring
      rw [hcast, toI32_eq_self _ (Int.natCast_nonneg _) (by exact_mod_cast hsmall)]
      rw [ih (a * f x) (Nat.mul_pos ha (hf x)) hb]
      simp only [List.map_cons, List.prod_cons]
      push_cast
      ring

theorem pred_div_add_one (e t : Nat) (he : 1 ≤ e) (ht : 1 ≤ t) :
    (e - 1) / t + 1 = Nat.ceil ((e : ℚ) / (t : ℚ)) := by
  have ht0 : (0 : ℚ) < (t : ℚ) := by exact_mod_cast ht
  symm
  rw [Nat.ceil_eq_iff (Nat.succ_ne_zero _)]
  constructor
  · have hred : (e - 1) / t + 1 - 1 = (e - 1) / t := rfl
    rw [hred, lt_div_iff₀ ht0]
    have hnat : (e - 1) / t * t ≤ e - 1 := Nat.div_mul_le_self _ _
    have hlt : (e - 1) / t * t < e := lt_of_le_of_lt hnat (by omega)
    exact_mod_cast hlt
  · rw [div_le_iff₀ ht0]
    have hstep : e - 1 < ((e - 1) / t + 1) * t := by
      rw [← Nat.div_lt_iff_lt_mul (by omega : 0 < t)]
      omega
    have h2 : e ≤ ((e - 1) / t + 1) * t := by omega
    exact_mod_cast h2

/-! ### Claim theorems -/

/-- C1: the claim says the heap-layout computation fails with a
`LayoutError` whenever the heap region implied by the header would exceed
the buffer's declared length.  The code has no such check: evaluated on an
HDU whose header implies a heap region `[10000, 1010000)` inside a buffer
of declared size `1000000`, `open_from_pyfits_hdu` installs the layout
unconditionally and reports no error (it is a `void` function; the only
status it touches stays 0). -/
theorem open_hdu_no_heap_bounds_check :
    (open_from_pyfits_hdu fits_binary_tform psZero maxElemZero hduOverflowHeap).heapstart
        = 10000 ∧
    (open_from_pyfits_hdu fits_binary_tform psZero maxElemZero hduOverflowHeap).heapsize
        = 1000000 ∧
    (open_from_pyfits_hdu fits_binary_tform psZero maxElemZero hduOverflowHeap).bufsize
        = 1000000 ∧
    (open_from_pyfits_hdu fits_binary_tform psZero maxElemZero hduOverflowHeap).bufsize
        < (open_from_pyfits_hdu fits_binary_tform psZero maxElemZero hduOverflowHeap).heapstart
          + (open_from_pyfits_hdu fits_binary_tform psZero maxElemZero hduOverflowHeap).heapsize ∧
    (open_from_pyfits_hdu fits_binary_tform psZero maxElemZero hduOverflowHeap).status
        = 0 := by
  exact ⟨rfl, rfl, rfl, by decide, rfl⟩

/-- C2: the claim says an unrecognized or empty `TFORMn` makes the column
build fail with a `FormatParseError`.  Evaluated on a header with
`TFIELDS = 1` and `TFORM1 = ""`, the format parser does fail
(`BAD_TFORM` status), but `tcolumns_from_header` discards that status and
returns the descriptor array with return value 0; its return value is the
constant 0 for every header and every behaviour of the parser. -/
theorem tcolumns_ignores_tform_parse_status :
    (fits_binary_tform "" psZero).status = BAD_TFORM ∧
    (tcolumns_from_header fits_binary_tform psZero hdrBadTform).2.2 = 0 ∧
    (tcolumns_from_header fits_binary_tform psZero hdrBadTform).1.length = 1 ∧
    (∀ parse ps h, (tcolumns_from_header parse ps h).2.2 = 0) := by
  exact ⟨rfl, rfl, by decide, fun parse ps h => rfl⟩

/-- C3: the claim says algorithm resolution matches `ZCMPTYPE` against
the four tags and resolves an absent/unrecognized tag to `NONE`.
Evaluated on a header with no `ZCMPTYPE` at all, `configure_compression`
resolves `RICE_1` (its hard-coded dummy value), not `NONE`. -/
theorem configure_compression_hardcodes_rice :
    (configure_compression maxElemZero emptyHeader).compress_type = RICE_1 ∧
    (configure_compression maxElemZero emptyHeader).zcmptype = "RICE_1" ∧
    RICE_1 ≠ NO_COMPRESSION := by
  exact ⟨rfl, rfl, by decide⟩

/-- C4: each of the four typed header getters performs exactly one key
lookup (under every header, key and default), and on a missing key
returns the caller-supplied default with the lookup error cleared. -/
theorem header_getters_single_lookup_default (h : Header) (kw : String)
    (ds : String) (dl : Nat) (dd : ℚ) (dll : Nat) :
    (get_header_string h kw ds).2.2 = [kw] ∧
    (get_header_long h kw dl).2.2 = [kw] ∧
    (get_header_double h kw dd).2.2 = [kw] ∧
    (get_header_longlong h kw dll).2.2 = [kw] ∧
    (h kw = none →
      get_header_string h kw ds = (some ds, none, [kw]) ∧
      get_header_long h kw dl = (dl, none, [kw]) ∧
      get_header_double h kw dd = (dd, none, [kw]) ∧
      get_header_longlong h kw dll = (dll, none, [kw])) := by
  cases hk : h kw with
  | none =>
      simp [get_header_string, get_header_long, get_header_double,
        get_header_longlong, pyObject_GetItem, hk]
  | some v =>
      simp [get_header_string, get_header_long, get_header_double,
        get_header_longlong, pyObject_GetItem, hk]

/-- Witness for C4 at a concrete missing key. -/
theorem header_getters_single_lookup_default_witness :
    emptyHeader "ZCMPTYPE" = none ∧
    get_header_string emptyHeader "ZCMPTYPE" "RICE_1" = (some "RICE_1", none, ["ZCMPTYPE"]) ∧
    get_header_long emptyHeader "ZCMPTYPE" 7 = (7, none, ["ZCMPTYPE"]) ∧
    get_header_double emptyHeader "ZCMPTYPE" 3 = (3, none, ["ZCMPTYPE"]) ∧
    get_header_longlong emptyHeader "ZCMPTYPE" 9 = (9, none, ["ZCMPTYPE"]) := by
  have hmain :=
    (header_getters_single_lookup_default emptyHeader "ZCMPTYPE" "RICE_1" 7 3 9).2.2.2.2 rfl
  exact ⟨rfl, hmain.1, hmain.2.1, hmain.2.2.1, hmain.2.2.2⟩

/-- C5 counterexample: the claim asserts, for every pair of extents with
each component ≥ 1, that the computed total tile count equals the product
of per-axis ceilings.  On the single axis `(2 ^ 31, 1)` (extent and tile
extent representable C `long` values, both ≥ 1) the ceiling product is
`2 ^ 31`, but the `int` accumulator of the loop wraps to `-2 ^ 31`, so
the equality fails. -/
theorem ntiles_int_overflow_counterexample :
    (∀ p ∈ [((2 ^ 31 : Nat), (1 : Nat))], 1 ≤ p.1 ∧ 1 ≤ p.2) ∧
    ntiles [(2 ^ 31, 1)] = -(2 ^ 31) ∧
    ((([((2 ^ 31 : Nat), (1 : Nat))].map
        (fun p => Nat.ceil ((p.1 : ℚ) / (p.2 : ℚ)))).prod : Nat) : Int) = 2 ^ 31 ∧
    ntiles [(2 ^ 31, 1)] ≠
      ((([((2 ^ 31 : Nat), (1 : Nat))].map
        (fun p => Nat.ceil ((p.1 : ℚ) / (p.2 : ℚ)))).prod : Nat) : Int) := by
  have hc := (pred_div_add_one (2 ^ 31) 1 (by norm_num) (by norm_num)).symm
  have hprod : ([((2 ^ 31 : Nat), (1 : Nat))].map
      (fun p => Nat.ceil ((p.1 : ℚ) / (p.2 : ℚ)))).prod = 2 ^ 31 := by
    simp only [List.map_cons, List.map_nil, List.prod_cons, List.prod_nil,
      mul_one, hc]
    decide
  refine ⟨by decide, by decide, ?_, ?_⟩
  · rw [hprod]
    decide
  · rw [hprod]
    decide

/-- C5 (amended): for per-axis image and tile extents all ≥ 1 and
representable as C `long` values, and whenever the ceiling-product tile
count fits the loop's 32-bit signed `int` accumulator (is below
`2 ^ 31`), the tile count computed by the
`ntiles *= (naxes[ii] - 1) / tileSize[ii] + 1` loop equals the product
over axes of `ceil(image_extent / tile_extent)`; the per-axis integer
expression equals that ceiling on every axis. -/
theorem ntiles_eq_prod_ceil (axes : List (Nat × Nat))
    (hax : ∀ p ∈ axes, 1 ≤ p.1 ∧ 1 ≤ p.2 ∧ p.1 < 2 ^ 63 ∧ p.2 < 2 ^ 63)
    (hbound : (axes.map (fun p => Nat.ceil ((p.1 : ℚ) / (p.2 : ℚ)))).prod < 2 ^ 31) :
    ntiles axes =
      (((axes.map (fun p => Nat.ceil ((p.1 : ℚ) / (p.2 : ℚ)))).prod : Nat) : Int) ∧
    ∀ p ∈ axes, (p.1 - 1) / p.2 + 1 = Nat.ceil ((p.1 : ℚ) / (p.2 : ℚ)) := by
  have hmap : axes.map (fun p => Nat.ceil ((p.1 : ℚ) / (p.2 : ℚ))) =
      axes.map (fun p => (p.1 - 1) / p.2 + 1) := by
    apply List.map_congr_left
    intro p hp
    exact (pred_div_add_one _ _ (hax p hp).1 (hax p hp).2.1).symm
  constructor
  · rw [hmap] at hbound ⊢
    have hres := foldl_toI32_mul (fun p => (p.1 - 1) / p.2 + 1)
      (fun p => Nat.le_add_left 1 _) axes 1 (le_refl 1) (by rwa [one_mul])
    rw [one_mul] at hres
    exact hres
  · intro p hp
    exact pred_div_add_one _ _ (hax p hp).1 (hax p hp).2.1

/-- Witness for C5 on a two-axis shape with a ragged trailing tile. -/
theorem ntiles_eq_prod_ceil_witness :
    (∀ p ∈ [(5, 2), (3, 3)], 1 ≤ (p : Nat × Nat).1 ∧ 1 ≤ p.2 ∧
      p.1 < 2 ^ 63 ∧ p.2 < 2 ^ 63) ∧
    ([(5, 2), (3, 3)].map
      (fun p => Nat.ceil (((p : Nat × Nat).1 : ℚ) / (p.2 : ℚ)))).prod < 2 ^ 31 ∧
    ntiles [(5, 2), (3, 3)] =
      ((([(5, 2), (3, 3)].map
        (fun p => Nat.ceil (((p : Nat × Nat).1 : ℚ) / (p.2 : ℚ)))).prod : Nat) : Int) ∧
    ntiles [(5, 2), (3, 3)] = 3 := by
  have hc1 := (pred_div_add_one 5 2 (by norm_num) (by norm_num)).symm
  have hc2 := (pred_div_add_one 3 3 (by norm_num) (by norm_num)).symm
  have hax : ∀ p ∈ [((5 : Nat), (2 : Nat)), (3, 3)], 1 ≤ p.1 ∧ 1 ≤ p.2 ∧
      p.1 < 2 ^ 63 ∧ p.2 < 2 ^ 63 := by decide
  have hbound : ([((5 : Nat), (2 : Nat)), (3, 3)].map
      (fun p => Nat.ceil ((p.1 : ℚ) / (p.2 : ℚ)))).prod < 2 ^ 31 := by
    simp only [List.map_cons, List.map_nil, List.prod_cons, List.prod_nil,
      mul_one, hc1, hc2]
    decide
  exact ⟨hax, hbound, (ntiles_eq_prod_ceil _ hax hbound).1, by decide⟩

/-- C6: the heap layout installed by `open_from_pyfits_hdu` has
`rowlength` from `NAXIS1`, `numrows` from `NAXIS2`, `heapsize` from
`PCOUNT`, `heapstart = rowlength * numrows` (whenever the product fits in
64 bits), and each of the three inputs defaults to 0 when its keyword is
absent. -/
theorem heap_layout_fields (parse : String → ParseState → ParseState)
    (ps0 : ParseState) (mx : Int → Int → Int → Int → Int) (hdu : PyHdu) :
    let rowlen := (get_header_longlong hdu.header "NAXIS1" 0).1
    let nrows := (get_header_longlong hdu.header "NAXIS2" 0).1
    let pcount := (get_header_longlong hdu.header "PCOUNT" 0).1
    let f := open_from_pyfits_hdu parse ps0 mx hdu
    f.rowlength = rowlen ∧ f.numrows = nrows ∧ f.heapsize = pcount ∧
    (rowlen * nrows < 2 ^ 64 → f.heapstart = rowlen * nrows) ∧
    (hdu.header "NAXIS1" = none → rowlen = 0) ∧
    (hdu.header "NAXIS2" = none → nrows = 0) ∧
    (hdu.header "PCOUNT" = none → pcount = 0) := by
  refine ⟨rfl, rfl, rfl, fun hlt => Nat.mod_eq_of_lt hlt, ?_, ?_, ?_⟩
  · intro hn; simp [get_header_longlong, pyObject_GetItem, hn]
  · intro hn; simp [get_header_longlong, pyObject_GetItem, hn]
  · intro hn; simp [get_header_longlong, pyObject_GetItem, hn]

/-- Witness for C6 on an HDU whose header lacks all three keywords. -/
theorem heap_layout_fields_witness :
    let f := open_from_pyfits_hdu fits_binary_tform psZero maxElemZero
      { header := emptyHeader, dataNBytes := 0 }
    f.rowlength = 0 ∧ f.numrows = 0 ∧ f.heapsize = 0 ∧ f.heapstart = 0 := by
  have hmain := heap_layout_fields fits_binary_tform psZero maxElemZero
    { header := emptyHeader, dataNBytes := 0 }
  exact ⟨hmain.1, hmain.2.1, hmain.2.2.1, hmain.2.2.2.1 (by decide)⟩

/-- C7: each column descriptor stores the `TTYPEn` header value truncated
to at most 69 characters and the `TFORMn` value truncated to at most 9
characters; over-long values are truncated, never rejected. -/
theorem tcolumn_name_form_truncation (parse : String → ParseState → ParseState)
    (ps0 : ParseState) (h : Header) (idx : Nat)
    (h1 : 1 ≤ idx) (h2 : idx ≤ (tcolumns_from_header parse ps0 h).2.1)
    (ht : h (tkeyword "TTYPE" idx) = none ∨
      ∃ s, h (tkeyword "TTYPE" idx) = some (PyVal.str s))
    (hf : h (tkeyword "TFORM" idx) = none ∨
      ∃ s, h (tkeyword "TFORM" idx) = some (PyVal.str s)) :
    ∃ c, (tcolumns_from_header parse ps0 h).1[idx - 1]? = some c ∧
      c.ttype = strncpyTo (headerCStr h (tkeyword "TTYPE" idx)) 69 ∧
      c.tform = strncpyTo (headerCStr h (tkeyword "TFORM" idx)) 9 ∧
      c.ttype.length ≤ 69 ∧ c.tform.length ≤ 9 ∧
      ((∀ ch ∈ (headerCStr h (tkeyword "TTYPE" idx)).data, ch.toNat ≠ 0) →
        c.ttype.data = (headerCStr h (tkeyword "TTYPE" idx)).data.take 69) ∧
      ((∀ ch ∈ (headerCStr h (tkeyword "TFORM" idx)).data, ch.toNat ≠ 0) →
        c.tform.data = (headerCStr h (tkeyword "TFORM" idx)).data.take 9) := by
  have htf : (tcolumns_from_header parse ps0 h).2.1 =
      (get_header_long h "TFIELDS" 0).1 := rfl
  rw [htf] at h2
  obtain ⟨ps2, hp⟩ := buildColumns_get parse h
    ((get_header_long h "TFIELDS" 0).1) (idx - 1) 1 ps0 (by omega)
  have hidx : 1 + (idx - 1) = idx := by omega
  rw [hidx] at hp
  refine ⟨(buildColumn parse h idx ps2).1, hp, rfl, rfl,
    strncpyTo_length_le _ _, strncpyTo_length_le _ _, ?_, ?_⟩
  · intro hnul
    show ((cstr (headerCStr h (tkeyword "TTYPE" idx))).take 69) = _
    rw [cstr_of_noNul _ hnul]
  · intro hnul
    show ((cstr (headerCStr h (tkeyword "TFORM" idx))).take 9) = _
    rw [cstr_of_noNul _ hnul]

/-- Witness for C7 on a header whose `TTYPE1` has 72 characters and
whose `TFORM1` has 11 characters. -/
theorem tcolumn_name_form_truncation_witness :
    ∃ c, (tcolumns_from_header fits_binary_tform psZero hdrTrunc).1[0]? = some c ∧
      c.ttype = strncpyTo (headerCStr hdrTrunc "TTYPE1") 69 ∧
      c.tform = strncpyTo (headerCStr hdrTrunc "TFORM1") 9 ∧
      c.ttype.length ≤ 69 ∧ c.tform.length ≤ 9 ∧
      ((∀ ch ∈ (headerCStr hdrTrunc "TTYPE1").data, ch.toNat ≠ 0) →
        c.ttype.data = (headerCStr hdrTrunc "TTYPE1").data.take 69) ∧
      ((∀ ch ∈ (headerCStr hdrTrunc "TFORM1").data, ch.toNat ≠ 0) →
        c.tform.data = (headerCStr hdrTrunc "TFORM1").data.take 9) := by
  exact tcolumn_name_form_truncation fits_binary_tform psZero hdrTrunc 1
    (by decide) (by decide)
    (Or.inr ⟨"AAAAAAAAAABBBBBBBBBBCCCCCCCCCCDDDDDDDDDDEEEEEEEEEEFFFFFFFFFFGGGGGGGGGGHH", rfl⟩)
    (Or.inr ⟨"1234567890E", rfl⟩)

/-- C8: `configure_compression` is independent of its header argument:
any two headers receive identical compression configuration, with the
hard-coded values RICE_1, zbitpix 16, extents 440×300 over two axes,
tile size 440×1, Rice block size 32 and bytepix 2, and the fixed
column/convention flags. -/
theorem configure_compression_header_independent
    (mx : Int → Int → Int → Int → Int) (h1 h2 : Header) :
    configure_compression mx h1 = configure_compression mx h2 ∧
    (configure_compression mx h1).compress_type = RICE_1 ∧
    (configure_compression mx h1).zcmptype = "RICE_1" ∧
    (configure_compression mx h1).zbitpix = 16 ∧
    (configure_compression mx h1).zndim = 2 ∧
    (configure_compression mx h1).znaxis = [440, 300, 0, 0, 0, 0] ∧
    (configure_compression mx h1).tilesize = [440, 1, 0, 0, 0, 0] ∧
    (configure_compression mx h1).maxtilelen = 440 ∧
    (configure_compression mx h1).rice_blocksize = 32 ∧
    (configure_compression mx h1).rice_bytepix = 2 ∧
    (configure_compression mx h1).compressimg = 1 ∧
    (configure_compression mx h1).cn_compressed = 1 ∧
    (configure_compression mx h1).cn_uncompressed = -1 ∧
    (configure_compression mx h1).cn_gzip_data = -1 ∧
    (configure_compression mx h1).cn_zscale = -1 ∧
    (configure_compression mx h1).cn_zzero = -1 ∧
    (configure_compression mx h1).cn_zblank = -1 ∧
    (configure_compression mx h1).zscale = 1 ∧
    (configure_compression mx h1).cn_bscale = 1 := by
  exact ⟨rfl, rfl, rfl, rfl, rfl, rfl, rfl, rfl, rfl, rfl, rfl, rfl, rfl,
    rfl, rfl, rfl, rfl, rfl, rfl⟩

/-- C9: the memory-file size is the data byte count plus `PCOUNT`,
raised to a minimum of 2880: any HDU whose sum is below 2880 gets a
declared size of exactly 2880, and any larger sum (fitting 64 bits) is
used as is. -/
theorem memfile_bufsize_min_2880 (parse : String → ParseState → ParseState)
    (ps0 : ParseState) (mx : Int → Int → Int → Int → Int) (hdu : PyHdu) :
    let pcount := (get_header_longlong hdu.header "PCOUNT" 0).1
    let f := open_from_pyfits_hdu parse ps0 mx hdu
    (hdu.dataNBytes + pcount < 2880 → f.bufsize = 2880) ∧
    (2880 ≤ hdu.dataNBytes + pcount → hdu.dataNBytes + pcount < 2 ^ 64 →
      f.bufsize = hdu.dataNBytes + pcount) := by
  intro pcount f
  constructor
  · intro hsmall
    show (if (hdu.dataNBytes + pcount) % 2 ^ 64 < 2880 then 2880
      else (hdu.dataNBytes + pcount) % 2 ^ 64) = 2880
    rw [Nat.mod_eq_of_lt (by omega)]
    simp [hsmall]
  · intro hbig hfit
    show (if (hdu.dataNBytes + pcount) % 2 ^ 64 < 2880 then 2880
      else (hdu.dataNBytes + pcount) % 2 ^ 64) = hdu.dataNBytes + pcount
    rw [Nat.mod_eq_of_lt hfit]
    simp [Nat.not_lt_of_le hbig]

/-- Witness for C9: an empty HDU is raised to 2880; one with
`PCOUNT = 5000` keeps size 5000. -/
theorem memfile_bufsize_min_2880_witness :
    (open_from_pyfits_hdu fits_binary_tform psZero maxElemZero
      { header := emptyHeader, dataNBytes := 0 }).bufsize = 2880 ∧
    (open_from_pyfits_hdu fits_binary_tform psZero maxElemZero
      { header := hdrPcount5000, dataNBytes := 0 }).bufsize = 5000 := by
  constructor
  · exact (memfile_bufsize_min_2880 fits_binary_tform psZero maxElemZero
      { header := emptyHeader, dataNBytes := 0 }).1 (by decide)
  · exact (memfile_bufsize_min_2880 fits_binary_tform psZero maxElemZero
      { header := hdrPcount5000, dataNBytes := 0 }).2 (by decide) (by decide)

/-- C10: `get_long_array` is all-or-nothing: a non-list argument yields
NULL with a `TypeError`; a list with any element failing integer
conversion yields NULL; a list whose elements all convert yields an
array of the list's length whose element `i` is the conversion of list
item `i`. -/
theorem get_long_array_all_or_nothing :
    (get_long_array PyArg.nonList).1 = Except.error PyErr.typeError ∧
    (∀ xs : List PyVal, (∃ v ∈ xs, ((pyLong_AsLong v).2).isSome = true) →
      ∃ e, (get_long_array (PyArg.list xs)).1 = Except.error e) ∧
    (∀ xs : List PyVal, (∀ v ∈ xs, (pyLong_AsLong v).2 = none) →
      (get_long_array (PyArg.list xs)).1 =
        Except.ok (xs.map (fun v => (pyLong_AsLong v).1)) ∧
      (get_long_array (PyArg.list xs)).2 = some xs.length) := by
  refine ⟨rfl, ?_, ?_⟩
  · intro xs hbad
    obtain ⟨v, hv, hsome⟩ := hbad
    obtain ⟨e, he⟩ := Option.isSome_iff_exists.mp hsome
    have hmem : e ∈ (xs.map pyLong_AsLong).filterMap Prod.snd := by
      rw [List.mem_filterMap]
      exact ⟨pyLong_AsLong v, List.mem_map_of_mem _ hv, he⟩
    have hne : (xs.map pyLong_AsLong).filterMap Prod.snd ≠ [] :=
      List.ne_nil_of_mem hmem
    have hlast : ((xs.map pyLong_AsLong).filterMap Prod.snd).getLast?.isSome := by
      rwa [List.getLast?_isSome]
    obtain ⟨e2, he2⟩ := Option.isSome_iff_exists.mp hlast
    exact ⟨e2, by simp only [get_long_array, he2]⟩
  · intro xs hok
    have hnil : (xs.map pyLong_AsLong).filterMap Prod.snd = [] := by
      rw [List.filterMap_eq_nil_iff]
      intro p hp
      obtain ⟨v, hv, hpv⟩ := List.mem_map.mp hp
      rw [← hpv]
      exact hok v hv
    constructor
    · simp only [get_long_array, hnil, List.getLast?_nil, List.map_map]
      rfl
    · simp only [get_long_array, hnil, List.getLast?_nil]

/-- Witness for C10: a list with a failing element yields an error; a
list of two ints yields exactly their conversions. -/
theorem get_long_array_all_or_nothing_witness :
    (∃ v ∈ [PyVal.int 3, PyVal.str "a"], ((pyLong_AsLong v).2).isSome = true) ∧
    (∃ e, (get_long_array (PyArg.list [PyVal.int 3, PyVal.str "a"])).1 =
      Except.error e) ∧
    (∀ v ∈ [PyVal.int 3, PyVal.int 5], (pyLong_AsLong v).2 = none) ∧
    (get_long_array (PyArg.list [PyVal.int 3, PyVal.int 5])).1 =
      Except.ok [3, 5] ∧
    (get_long_array (PyArg.list [PyVal.int 3, PyVal.int 5])).2 = some 2 := by
  have hbad : ∃ v ∈ [PyVal.int 3, PyVal.str "a"],
      ((pyLong_AsLong v).2).isSome = true := by decide
  have hok : ∀ v ∈ [PyVal.int 3, PyVal.int 5], (pyLong_AsLong v).2 = none := by
    decide
  have hres := get_long_array_all_or_nothing.2.2 _ hok
  exact ⟨hbad, get_long_array_all_or_nothing.2.1 _ hbad, hok, hres.1, hres.2⟩

end PyFitsCompression
